import Mathlib

/-!
Verification of the connection/authentication core of the NYC Operations
Command Center dashboard, shallowly embedded from the TypeScript source
(the Snowflake connection module and the analyst API route).

Conventions of the embedding:
* `process.env` variables and the filesystem are gathered in an `Env` value;
  the filesystem is a total map from paths to optional file contents.
* JavaScript string truthiness (`undefined`/`""` are falsy) is `jsTruthy`.
* External primitives (RSA signing, public-key fingerprinting) are passed in
  as function parameters; everything else is executable Lean.
-/

set_option maxRecDepth 10000

/-- `subAt p l` : the character list `p` occurs at the head of `l`
(model of a pattern match at one position). -/
def subAt : List Char → List Char → Bool
  | [], _ => true
  | _ :: _, [] => false
  | p :: ps, c :: cs => p == c && subAt ps cs

/-- `hasSub p l` : `p` occurs somewhere in `l` (JS `String.includes`). -/
def hasSub (p : List Char) : List Char → Bool
  | [] => subAt p []
  | c :: cs => subAt p (c :: cs) || hasSub p cs

/-- JS `s.includes(pat)`. -/
def strIncludes (s pat : String) : Bool := hasSub pat.data s.data

/-- JS truthiness of a possibly-absent string: `undefined` and `""` are falsy. -/
def jsTruthy : Option String → Bool
  | none => false
  | some s => !(s == "")

/-- JS `toUpperCase` (ASCII). -/
def jsToUpper (s : String) : String := String.mk (s.data.map Char.toUpper)

/-- Model of `keyContent.replace(/\\n/g, "\n")`: every literal
backslash-`n` two-character sequence becomes a real newline. -/
def fixNewlinesList : List Char → List Char
  | [] => []
  | [c] => [c]
  | c :: c2 :: rest =>
    if c == '\\' && c2 == 'n' then '\n' :: fixNewlinesList rest
    else c :: fixNewlinesList (c2 :: rest)

/-- String version of `fixNewlinesList`. -/
def fixNewlinesStr (s : String) : String := String.mk (fixNewlinesList s.data)

/-- The five authentication methods of the source (`type AuthMethod`). -/
inductive AuthMethod where
  | oauth | keypair | pat | password | browser
  deriving DecidableEq, Repr

/-- Environment state: `process.env` variables plus the filesystem.
Only the OAuth token file is expected to change between calls, but the
model allows any of it to vary. -/
structure Env where
  files : String → Option String
  SNOWFLAKE_PRIVATE_KEY_PATH : Option String
  SNOWFLAKE_PRIVATE_KEY : Option String
  SNOWFLAKE_USER : Option String
  SNOWFLAKE_PAT : Option String
  SNOWFLAKE_PASSWORD : Option String
  SNOWFLAKE_ACCOUNT : Option String

/-- Source `getOAuthToken`: read `/snowflake/session/token` if it exists. -/
def getOAuthToken (env : Env) : Option String :=
  env.files "/snowflake/session/token"

/-- Source `getPrivateKey`: inline `SNOWFLAKE_PRIVATE_KEY` (with literal
backslash-n sequences replaced by newlines) takes precedence when truthy;
otherwise the file at `SNOWFLAKE_PRIVATE_KEY_PATH` is read if present. -/
def getPrivateKey (env : Env) : Option String :=
  if jsTruthy env.SNOWFLAKE_PRIVATE_KEY then
    some (fixNewlinesStr (env.SNOWFLAKE_PRIVATE_KEY.getD ""))
  else if jsTruthy env.SNOWFLAKE_PRIVATE_KEY_PATH then
    env.files (env.SNOWFLAKE_PRIVATE_KEY_PATH.getD "")
  else none

/-- Source `detectAuthMethod`: first applicable of
oauth, keypair, pat, password, browser. -/
def detectAuthMethod (env : Env) : AuthMethod :=
  if jsTruthy (getOAuthToken env) then .oauth
  else if jsTruthy (getPrivateKey env) && jsTruthy env.SNOWFLAKE_USER then .keypair
  else if jsTruthy env.SNOWFLAKE_PAT then .pat
  else if jsTruthy env.SNOWFLAKE_PASSWORD then .password
  else .browser

/-- A live warehouse session: the id distinguishes physically distinct
connections; `method` and `token` are what it was created under. -/
structure Conn where
  id : Nat
  method : AuthMethod
  token : Option String
  deriving DecidableEq, Repr

/-- The module-level mutable state of the source
(`connection`, `cachedToken`, `cachedAuthMethod`); `nextId` supplies
fresh connection identities. -/
structure Cache where
  connection : Option Conn
  cachedToken : Option String
  cachedAuthMethod : Option AuthMethod
  nextId : Nat
  deriving DecidableEq, Repr

/-- The state before the first query. -/
def initCache : Cache := ⟨none, none, none, 0⟩

/-- Source line `const token = authMethod === "oauth" ? getOAuthToken() : null`. -/
def availableToken (env : Env) : Option String :=
  if detectAuthMethod env = .oauth then getOAuthToken env else none

/-- Source `getConnection`: reuse the cached connection when the freshly
detected method matches the cached one and the (oauth) token is unchanged;
otherwise destroy the old connection and connect anew.  The `Bool` result
records whether a connect was performed. -/
def getConnection (env : Env) (σ : Cache) : Cache × Conn × Bool :=
  let m := detectAuthMethod env
  let token := availableToken env
  if σ.connection.isSome ∧ σ.cachedAuthMethod = some m ∧
      (jsTruthy token = false ∨ token = σ.cachedToken) then
    (σ, σ.connection.getD ⟨0, m, none⟩, false)
  else
    let c : Conn := ⟨σ.nextId, m, token⟩
    ({ connection := some c, cachedToken := token,
       cachedAuthMethod := some m, nextId := σ.nextId + 1 }, c, true)

/-- A driver error as observed by the catch blocks: optional message and
optional numeric code. -/
structure SfError where
  message : Option String
  code : Option Int
  deriving DecidableEq, Repr

/-- Source `isRetryableError`. -/
def isRetryableError (e : SfError) : Bool :=
  (match e.message with
   | some m => strIncludes m "OAuth access token expired" ||
               strIncludes m "terminated connection"
   | none => false) || e.code == some 407002

/-- The message text used by `console.error("Query error:", err.message)`. -/
def msgText (e : SfError) : String := e.message.getD "undefined"

/-- Source `query<T>(sql, retries = 1)`.  The statement submission is the
oracle `exec`, indexed by how many submissions have already happened; the
third component collects the `console.error` log lines of the catch blocks.
On a retryable failure with budget left the cached connection is nulled out
and the call recurses with `retries - 1`. -/
def query {α : Type} (env : Env) (exec : Nat → Except SfError (List α)) :
    Cache → Nat → Nat → Cache × Except SfError (List α) × List String
  | σ, attempt, retries =>
    let g := getConnection env σ
    match exec attempt, retries with
    | Except.ok rows, _ => (g.1, Except.ok rows, [])
    | Except.error e, 0 => (g.1, Except.error e, ["Query error: " ++ msgText e])
    | Except.error e, r + 1 =>
      if isRetryableError e then
        let res := query env exec { g.1 with connection := none } (attempt + 1) r
        (res.1, res.2.1, ("Query error: " ++ msgText e) :: res.2.2)
      else (g.1, Except.error e, ["Query error: " ++ msgText e])

/-- The default value of the `retries` parameter in the source. -/
def defaultRetries : Nat := 1

/-!  ### JWT signer (analyst route `generateJWT`)  -/

/-- The base64 alphabet in its base64url variant. -/
def b64Alpha : List Char :=
  "ABCDEFGHIJKLMNOPQRSTUVWXYZabcdefghijklmnopqrstuvwxyz0123456789-_".data

/-- The base64url character for a sextet. -/
def b64Char (n : Nat) : Char := b64Alpha.getD (n % 64) 'A'

/-- Unpadded base64url encoding of a byte list
(model of Node `Buffer.toString("base64url")`). -/
def b64EncodeList : List Nat → List Char
  | [] => []
  | [b1] => [b64Char (b1 / 4), b64Char (b1 % 4 * 16)]
  | [b1, b2] =>
    [b64Char (b1 / 4), b64Char (b1 % 4 * 16 + b2 / 16), b64Char (b2 % 16 * 4)]
  | b1 :: b2 :: b3 :: rest =>
    b64Char (b1 / 4) :: b64Char (b1 % 4 * 16 + b2 / 16) ::
    b64Char (b2 % 16 * 4 + b3 / 64) :: b64Char (b3 % 64) :: b64EncodeList rest

/-- UTF-8 bytes of one character. -/
def utf8Char (c : Char) : List Nat :=
  let n := c.toNat
  if n < 128 then [n]
  else if n < 2048 then [192 + n / 64, 128 + n % 64]
  else if n < 65536 then [224 + n / 4096, 128 + n / 64 % 64, 128 + n % 64]
  else [240 + n / 262144, 128 + n / 4096 % 64, 128 + n / 64 % 64, 128 + n % 64]

/-- UTF-8 bytes of a character list. -/
def utf8List : List Char → List Nat
  | [] => []
  | c :: cs => utf8Char c ++ utf8List cs

/-- `Buffer.from(s).toString("base64url")`: unpadded base64url of a string. -/
def base64url (s : String) : String := String.mk (b64EncodeList (utf8List s.data))

/-- JSON string escaping of quote and backslash characters
(the only escapes `JSON.stringify` needs on the values at hand). -/
def jsonEscList : List Char → List Char
  | [] => []
  | c :: cs =>
    if c == '"' || c == '\\' then '\\' :: c :: jsonEscList cs
    else c :: jsonEscList cs

/-- String version of `jsonEscList`. -/
def jsonEsc (s : String) : String := String.mk (jsonEscList s.data)

/-- Remove the first occurrence of `pat` from a character list
(model of JS `String.replace` with a plain-string pattern and empty
replacement, which replaces only the first occurrence). -/
def removeFirstAux (pat : List Char) : List Char → List Char
  | [] => []
  | c :: cs =>
    if subAt pat (c :: cs) then (c :: cs).drop pat.length
    else c :: removeFirstAux pat cs

/-- Source `account.toUpperCase().replace(".GLOBAL", "").split(".")[0]`
followed by `` `${accountUpper}.${userUpper}` ``. -/
def jwtQualifiedUsername (account user : String) : String :=
  String.mk ((removeFirstAux (".GLOBAL").data (jsToUpper account).data).takeWhile
    (fun c => c != '.')) ++ "." ++ jsToUpper user

/-- `JSON.stringify({ alg: "RS256", typ: "JWT" })`. -/
def jwtHeaderJson : String := "\x7b\"alg\":\"RS256\",\"typ\":\"JWT\"\x7d"

/-- `JSON.stringify({ iss, sub, iat, exp })` for the analyst route's payload:
issuer `{qualifiedUsername}.SHA256:{fingerprint}`, subject the qualified
username, issued-at `now`, expiry `now + 3600`. -/
def jwtPayloadJson (qualifiedUsername fp : String) (now : Nat) : String :=
  "\x7b\"iss\":\"" ++ jsonEsc (qualifiedUsername ++ ".SHA256:" ++ fp) ++
  "\",\"sub\":\"" ++ jsonEsc qualifiedUsername ++
  "\",\"iat\":" ++ toString now ++ ",\"exp\":" ++ toString (now + 3600) ++ "\x7d"

/-- Source `generateJWT`.  The cryptographic primitives are parameters:
`fingerprintOf k` is the base64 SHA-256 of the SPKI/DER public key derived
from `k`, and `sign k m` is the base64url RSA-SHA256 signature of `m` under
`k`.  The absence of a resolvable key is checked first and raises the
credential error of the source. -/
def generateJWT (fingerprintOf : String → String) (sign : String → String → String)
    (env : Env) (now : Nat) : Except String String :=
  let account := env.SNOWFLAKE_ACCOUNT.getD ""
  let user := env.SNOWFLAKE_USER.getD ""
  match getPrivateKey env with
  | none => Except.error "Private key not available for JWT generation"
  | some k =>
    if k == "" then Except.error "Private key not available for JWT generation"
    else
      let q := jwtQualifiedUsername account user
      let fp := fingerprintOf k
      let headerB64 := base64url jwtHeaderJson
      let payloadB64 := base64url (jwtPayloadJson q fp now)
      Except.ok (headerB64 ++ "." ++ payloadB64 ++ "." ++
        sign k (headerB64 ++ "." ++ payloadB64))

/-- Whether a private key is resolvable in the JS sense: `getPrivateKey`
returns a truthy (non-empty) value. -/
def privateKeyResolvable (env : Env) : Bool := jsTruthy (getPrivateKey env)

/-- Modelled from the spec: account normalization as the spec's words
describe it — uppercase, strip a `.GLOBAL` *suffix*, take the segment
before the first remaining dot — for comparison with the source's
normalization. -/
def specQualifiedIdentity (account user : String) : String :=
  let u := (jsToUpper account).data
  let u2 := if subAt (".GLOBAL").data.reverse u.reverse then
      (u.reverse.drop 7).reverse
    else u
  String.mk (u2.takeWhile (fun c => c != '.')) ++ "." ++ jsToUpper user

/-- Remove the first occurrence of `pat`, located by index search; an
independent formulation used to state the amended account-normalization
claim. -/
def removeFirstIdx (pat l : List Char) : List Char :=
  match (List.range (l.length + 1)).find? (fun i => subAt pat (l.drop i)) with
  | some i => l.take i ++ l.drop (i + pat.length)
  | none => l

/-- The amended account normalization: uppercase, remove the *first
occurrence* of `.GLOBAL` anywhere, take the segment before the first
remaining dot, append the uppercased username. -/
def amendedQualifiedIdentity (account user : String) : String :=
  String.mk ((removeFirstIdx (".GLOBAL").data (jsToUpper account).data).takeWhile
    (fun c => c != '.')) ++ "." ++ jsToUpper user

/-!  ### Natural-Language Gateway (analyst route `POST` / `fallbackToDirectQuery`)  -/

/-- The SQL single-quote character. -/
def sqChar : Char := Char.ofNat 39

/-- A one-character string holding the SQL single quote. -/
def sqStr : String := String.mk [sqChar]

/-- `question.replace(/'/g, "''")` on character lists: every single quote
becomes two single quotes. -/
def escListQ : List Char → List Char
  | [] => []
  | c :: cs => if c == sqChar then sqChar :: sqChar :: escListQ cs else c :: escListQ cs

/-- String version of `escListQ` (the source's `escapedQuestion`). -/
def escapeQuotes (s : String) : String := String.mk (escListQ s.data)

/-- Decode a doubled-quote literal body back to its content (each pair of
single quotes becomes one). -/
def unescListQ : List Char → List Char
  | [] => []
  | [c] => [c]
  | c :: c2 :: cs2 =>
    if c == sqChar then
      if c2 == sqChar then sqChar :: unescListQ cs2 else c :: unescListQ (c2 :: cs2)
    else c :: unescListQ (c2 :: cs2)

/-- A character list is a well-formed SQL string-literal body when every
single quote in it is immediately followed by a second one that is consumed
with it. -/
def allQuotesDoubled : List Char → Bool
  | [] => true
  | [c] => c != sqChar
  | c :: c2 :: cs2 =>
    if c == sqChar then c2 == sqChar && allQuotesDoubled cs2
    else allQuotesDoubled (c2 :: cs2)

/-- The fixed prompt text of `fallbackToDirectQuery`. -/
def promptText : String :=
  "You are an NYC Operations assistant. Answer this question concisely: "

/-- The template text before the question's literal in `fallbackToDirectQuery`. -/
def sqlTplPre : String :=
  "\n    SELECT SNOWFLAKE.CORTEX.COMPLETE(\n      " ++ sqStr ++ "mistral-large2" ++
  sqStr ++ ",\n      " ++ sqStr ++ promptText

/-- The template text after the question's literal in `fallbackToDirectQuery`. -/
def sqlTplPost : String := sqStr ++ "\n    ) as RESPONSE\n  "

/-- The SQL statement `fallbackToDirectQuery` constructs for a question. -/
def fallbackSql (question : String) : String :=
  sqlTplPre ++ escapeQuotes question ++ sqlTplPost

/-- `response[0]?.RESPONSE || "Unable to process your question."`:
rows are modelled as their `RESPONSE` strings. -/
def fallbackAnswer (rows : List String) : String :=
  match rows.head? with
  | some s => if s == "" then "Unable to process your question." else s
  | none => "Unable to process your question."

/-- A successful Cortex Agent response as parsed by `callCortexAgent`. -/
structure AgentOk where
  answer : String
  sql : Option String
  results : Option (List String)
  toolName : Option String
  deriving DecidableEq, Repr

/-- A failed Cortex Agent call: the error's message and whether it was a
`DOMException` (the abort signal's error). -/
structure AgentFail where
  message : String
  isDomException : Bool
  deriving DecidableEq, Repr

/-- The observable response of the analyst route's `POST` handler. -/
structure PostResponse where
  status : Nat
  answer : Option String
  sql : Option String
  results : Option (List String)
  usedAgent : Option Bool
  errorMsg : Option String
  deriving DecidableEq, Repr

/-- Source `POST` of the analyst route: a missing/empty question is a 400;
a successful agent call is returned as-is; a failed agent call whose error
message contains "aborted" or is a `DOMException` is rethrown as
"Request timeout" and answered by the outer catch with a 504; any other
agent failure falls back to `fallbackToDirectQuery` (whose own outcome is
the `fallback` parameter); a fallback failure reaches the outer catch. -/
def postHandler (question : Option String) (agent : Except AgentFail AgentOk)
    (fallback : Except SfError (List String)) : PostResponse :=
  if jsTruthy question = false then
    ⟨400, none, none, none, none, some "Question is required"⟩
  else
    match agent with
    | Except.ok a => ⟨200, some a.answer, a.sql, a.results, some true, none⟩
    | Except.error f =>
      if strIncludes f.message "aborted" || f.isDomException then
        ⟨504, none, none, none, none,
          some "Request timed out. Please try a simpler question."⟩
      else
        match fallback with
        | Except.ok rows => ⟨200, some (fallbackAnswer rows), none, none, some false, none⟩
        | Except.error e =>
          let msg := msgText e
          if strIncludes msg "timeout" || strIncludes msg "aborted" then
            ⟨504, none, none, none, none,
              some "Request timed out. Please try a simpler question."⟩
          else
            ⟨500, none, none, none, none,
              some ("Failed to process question: " ++ msg)⟩

/-!  ### Helper lemmas  -/

lemma detect_oauth_iff (env : Env) :
    detectAuthMethod env = AuthMethod.oauth ↔ jsTruthy (getOAuthToken env) = true := by
  unfold detectAuthMethod
  split_ifs with h1 h2 h3 h4 <;> simp_all

lemma availableToken_none_iff (env : Env) :
    jsTruthy (availableToken env) = false ↔ availableToken env = none := by
  unfold availableToken
  by_cases h : detectAuthMethod env = AuthMethod.oauth
  · have ht := (detect_oauth_iff env).mp h
    cases hgo : getOAuthToken env with
    | none => rw [hgo] at ht; simp [jsTruthy] at ht
    | some s => rw [hgo] at ht; simp [h, hgo, ht]
  · simp [h, jsTruthy]

lemma getConnection_init (env : Env) :
    getConnection env initCache =
      ({ connection := some ⟨0, detectAuthMethod env, availableToken env⟩,
         cachedToken := availableToken env,
         cachedAuthMethod := some (detectAuthMethod env), nextId := 1 },
       ⟨0, detectAuthMethod env, availableToken env⟩, true) := by
  unfold getConnection initCache
  simp

lemma b64Char_ne_pad (n : Nat) : b64Char n ≠ '=' := by
  have h : n % 64 < 64 := Nat.mod_lt _ (by norm_num)
  have hall : ∀ m, m < 64 → b64Alpha.getD m 'A' ≠ '=' := by decide
  simpa [b64Char] using hall _ h

lemma b64EncodeList_no_pad (l : List Nat) : '=' ∉ b64EncodeList l := by
  induction l using b64EncodeList.induct with
  | case1 => simp [b64EncodeList]
  | case2 b1 =>
    intro hmem
    simp [b64EncodeList] at hmem
    rcases hmem with h | h <;> exact b64Char_ne_pad _ h.symm
  | case3 b1 b2 =>
    intro hmem
    simp [b64EncodeList] at hmem
    rcases hmem with h | h | h <;> exact b64Char_ne_pad _ h.symm
  | case4 b1 b2 b3 rest ih =>
    intro hmem
    simp [b64EncodeList] at hmem
    rcases hmem with h | h | h | h | h
    · exact b64Char_ne_pad _ h.symm
    · exact b64Char_ne_pad _ h.symm
    · exact b64Char_ne_pad _ h.symm
    · exact b64Char_ne_pad _ h.symm
    · exact ih h

lemma base64url_no_pad (s : String) : '=' ∉ (base64url s).data := by
  simpa [base64url] using b64EncodeList_no_pad (utf8List s.data)

lemma escListQ_append (l1 l2 : List Char) :
    escListQ (l1 ++ l2) = escListQ l1 ++ escListQ l2 := by
  induction l1 with
  | nil => rfl
  | cons c cs ih =>
    by_cases hc : c = sqChar <;> simp [escListQ, hc, ih]

lemma escListQ_cons_ne (c : Char) (hc : c ≠ sqChar) (l : List Char) :
    escListQ (c :: l) = c :: escListQ l := by
  simp [escListQ, hc]

lemma escListQ_cons_sq (l : List Char) :
    escListQ (sqChar :: l) = sqChar :: sqChar :: escListQ l := by
  simp [escListQ]

lemma unescListQ_cons_ne (c : Char) (hc : c ≠ sqChar) (l : List Char) :
    unescListQ (c :: l) = c :: unescListQ l := by
  cases l with
  | nil => simp [unescListQ]
  | cons y ys => simp [unescListQ, hc]

lemma unescListQ_cons_sq_sq (l : List Char) :
    unescListQ (sqChar :: sqChar :: l) = sqChar :: unescListQ l := by
  simp [unescListQ]

lemma allQuotesDoubled_cons_ne (c : Char) (hc : c ≠ sqChar) (l : List Char) :
    allQuotesDoubled (c :: l) = allQuotesDoubled l := by
  cases l with
  | nil => simp [allQuotesDoubled, hc]
  | cons y ys => simp [allQuotesDoubled, hc]

lemma allQuotesDoubled_cons_sq_sq (l : List Char) :
    allQuotesDoubled (sqChar :: sqChar :: l) = allQuotesDoubled l := by
  simp [allQuotesDoubled]

lemma escListQ_of_no_quote (l : List Char) (h : sqChar ∉ l) : escListQ l = l := by
  induction l with
  | nil => rfl
  | cons c cs ih =>
    simp only [List.mem_cons, not_or] at h
    rw [escListQ_cons_ne c (fun he => h.1 he.symm), ih h.2]

lemma unescListQ_esc (l : List Char) : unescListQ (escListQ l) = l := by
  induction l with
  | nil => rfl
  | cons c cs ih =>
    by_cases hc : c = sqChar
    · subst hc
      rw [escListQ_cons_sq, unescListQ_cons_sq_sq, ih]
    · rw [escListQ_cons_ne c hc, unescListQ_cons_ne c hc, ih]

lemma allQuotesDoubled_esc (l : List Char) : allQuotesDoubled (escListQ l) = true := by
  induction l with
  | nil => rfl
  | cons c cs ih =>
    by_cases hc : c = sqChar
    · subst hc
      rw [escListQ_cons_sq, allQuotesDoubled_cons_sq_sq, ih]
    · rw [escListQ_cons_ne c hc, allQuotesDoubled_cons_ne c hc, ih]

lemma removeFirstIdx_eq (pat : List Char) (l : List Char) :
    removeFirstIdx pat l = removeFirstAux pat l := by
  induction l with
  | nil =>
    unfold removeFirstIdx
    cases h : (List.range (List.length ([] : List Char) + 1)).find?
        (fun i => subAt pat (List.drop i [])) with
    | none => simp [h, removeFirstAux]
    | some i => simp [h, removeFirstAux]
  | cons c cs ih =>
    by_cases h : subAt pat (c :: cs) = true
    · have hfind : (List.range ((c :: cs).length + 1)).find?
          (fun i => subAt pat ((c :: cs).drop i)) = some 0 := by
        rw [List.range_succ_eq_map]
        exact List.find?_cons_of_pos _ (by simpa using h)
      unfold removeFirstIdx
      rw [hfind]
      simp [removeFirstAux, h]
    · have hpred : ((fun i => subAt pat ((c :: cs).drop i)) ∘ Nat.succ) =
          fun i => subAt pat (cs.drop i) := by
        funext i
        simp [Function.comp, List.drop_succ_cons]
      have hfind : (List.range ((c :: cs).length + 1)).find?
          (fun i => subAt pat ((c :: cs).drop i))
          = ((List.range (cs.length + 1)).find?
              (fun i => subAt pat (cs.drop i))).map Nat.succ := by
        rw [show (c :: cs).length + 1 = (cs.length + 1) + 1 from by simp,
          List.range_succ_eq_map, List.find?_cons_of_neg _ (by simpa using h),
          List.find?_map, hpred]
      unfold removeFirstIdx
      rw [hfind]
      cases hin : (List.range (cs.length + 1)).find? (fun i => subAt pat (cs.drop i)) with
      | none =>
        have hcs : removeFirstAux pat cs = cs := by
          rw [← ih]; unfold removeFirstIdx; rw [hin]
        simp [removeFirstAux, h, hcs]
      | some i =>
        have haux : removeFirstAux pat cs = cs.take i ++ cs.drop (i + pat.length) := by
          rw [← ih]; unfold removeFirstIdx; rw [hin]
        have hdrop : (c :: cs).drop (Nat.succ i + pat.length) = cs.drop (i + pat.length) := by
          rw [show Nat.succ i + pat.length = (i + pat.length) + 1 from by omega,
            List.drop_succ_cons]
        simp only [Option.map_some']
        rw [show Nat.succ i = i + 1 from rfl, List.take_succ_cons]
        rw [show i + 1 + pat.length = Nat.succ i + pat.length from rfl, hdrop]
        simp [removeFirstAux, h, haux]

lemma getConnection_nextId_le (env : Env) (σ : Cache) :
    σ.nextId ≤ (getConnection env σ).1.nextId := by
  unfold getConnection
  dsimp only
  split <;> simp

lemma getConnection_of_no_conn (env : Env) (σ : Cache) (h : σ.connection = none) :
    getConnection env σ =
      ({ connection := some ⟨σ.nextId, detectAuthMethod env, availableToken env⟩,
         cachedToken := availableToken env,
         cachedAuthMethod := some (detectAuthMethod env), nextId := σ.nextId + 1 },
       ⟨σ.nextId, detectAuthMethod env, availableToken env⟩, true) := by
  unfold getConnection
  simp [h]

lemma query_frame {α : Type} (env : Env) :
    ∀ (r : Nat) (exec₁ exec₂ : Nat → Except SfError (List α)) (σ : Cache) (a : Nat),
      (∀ i, i ≤ r → exec₁ (a + i) = exec₂ (a + i)) →
      query env exec₁ σ a r = query env exec₂ σ a r := by
  intro r
  induction r with
  | zero =>
    intro exec₁ exec₂ σ a h
    have h0 := h 0 (le_refl 0)
    simp only [Nat.add_zero] at h0
    unfold query
    rw [h0]
    cases hx : exec₂ a <;> rfl
  | succ n ih =>
    intro exec₁ exec₂ σ a h
    have h0 := h 0 (Nat.zero_le _)
    simp only [Nat.add_zero] at h0
    unfold query
    rw [h0]
    cases hx : exec₂ a with
    | ok rows => rfl
    | error e =>
      dsimp only
      by_cases hre : isRetryableError e = true
      · rw [if_pos hre, if_pos hre,
          ih exec₁ exec₂ _ (a + 1) (fun i hi => by
            have hi' := h (i + 1) (Nat.succ_le_succ hi)
            simpa [show a + (i + 1) = a + 1 + i from by omega] using hi')]
      · rw [if_neg hre, if_neg hre]

lemma getConnection_reuse (env : Env) (σ : Cache) (c : Conn) (hconn : σ.connection = some c)
    (hm : σ.cachedAuthMethod = some (detectAuthMethod env))
    (ht : jsTruthy (availableToken env) = false ∨ availableToken env = σ.cachedToken) :
    getConnection env σ = (σ, c, false) := by
  unfold getConnection
  dsimp only
  rw [if_pos ⟨by simp [hconn], hm, ht⟩]
  simp [hconn]

lemma getConnection_reconnect (env : Env) (σ : Cache)
    (h : ¬(σ.connection.isSome = true ∧ σ.cachedAuthMethod = some (detectAuthMethod env) ∧
      (jsTruthy (availableToken env) = false ∨ availableToken env = σ.cachedToken))) :
    getConnection env σ =
      ({ connection := some ⟨σ.nextId, detectAuthMethod env, availableToken env⟩,
         cachedToken := availableToken env,
         cachedAuthMethod := some (detectAuthMethod env), nextId := σ.nextId + 1 },
       ⟨σ.nextId, detectAuthMethod env, availableToken env⟩, true) := by
  unfold getConnection
  dsimp only
  rw [if_neg h]

lemma newline_mem_fixNewlines (l : List Char) (h : hasSub ['\\', 'n'] l = true) :
    '\n' ∈ fixNewlinesList l := by
  induction l using fixNewlinesList.induct with
  | case1 => simp [hasSub, subAt] at h
  | case2 c => simp [hasSub, subAt] at h
  | case3 c c2 rest hcond ih =>
    simp only [fixNewlinesList, hcond, if_true]
    exact List.mem_cons_self _ _
  | case4 c c2 rest hcond ih =>
    have hsub : subAt ['\\', 'n'] (c :: c2 :: rest) = false := by
      simp only [subAt, Bool.and_eq_true, beq_iff_eq] at hcond ⊢
      simp only [Bool.and_eq_false_iff]
      by_cases h1 : '\\' = c
      · right
        by_cases h2 : 'n' = c2
        · exact absurd ⟨h1.symm, h2.symm⟩ hcond
        · simp [h2]
      · left; simp [h1]
    rw [show hasSub ['\\', 'n'] (c :: c2 :: rest) =
        (subAt ['\\', 'n'] (c :: c2 :: rest) || hasSub ['\\', 'n'] (c2 :: rest)) from rfl,
      hsub] at h
    simp only [Bool.false_or] at h
    simp only [fixNewlinesList, hcond, if_false, Bool.if_false_left]
    exact List.mem_cons_of_mem _ (ih h)



/-!  ### Claim theorems  -/

/-- Claim C2: for every environment state, `detectAuthMethod` returns the
first applicable method in the fixed order oauth > keypair > pat > password
> browser: oauth exactly when a non-empty OAuth token file is present,
regardless of any other variables; keypair whenever there is no token file
but a private key is resolvable and a username is configured, even if a PAT
or password is also set; and browser exactly when none of the first four
apply. -/
theorem detectAuthMethod_priority (env : Env) :
    (detectAuthMethod env = AuthMethod.oauth ↔ jsTruthy (getOAuthToken env) = true)
  ∧ (detectAuthMethod env = AuthMethod.keypair ↔
      (jsTruthy (getOAuthToken env) = false ∧ privateKeyResolvable env = true ∧
       jsTruthy env.SNOWFLAKE_USER = true))
  ∧ (detectAuthMethod env = AuthMethod.pat ↔
      (jsTruthy (getOAuthToken env) = false ∧
       (privateKeyResolvable env = false ∨ jsTruthy env.SNOWFLAKE_USER = false) ∧
       jsTruthy env.SNOWFLAKE_PAT = true))
  ∧ (detectAuthMethod env = AuthMethod.password ↔
      (jsTruthy (getOAuthToken env) = false ∧
       (privateKeyResolvable env = false ∨ jsTruthy env.SNOWFLAKE_USER = false) ∧
       jsTruthy env.SNOWFLAKE_PAT = false ∧ jsTruthy env.SNOWFLAKE_PASSWORD = true))
  ∧ (detectAuthMethod env = AuthMethod.browser ↔
      (jsTruthy (getOAuthToken env) = false ∧
       (privateKeyResolvable env = false ∨ jsTruthy env.SNOWFLAKE_USER = false) ∧
       jsTruthy env.SNOWFLAKE_PAT = false ∧ jsTruthy env.SNOWFLAKE_PASSWORD = false))
  ∧ (getOAuthToken env = none → privateKeyResolvable env = true →
      jsTruthy env.SNOWFLAKE_USER = true → detectAuthMethod env = AuthMethod.keypair) := by
  unfold detectAuthMethod privateKeyResolvable
  refine ⟨?_, ?_, ?_, ?_, ?_, ?_⟩
  · generalize jsTruthy (getOAuthToken env) = o
    generalize jsTruthy (getPrivateKey env) = k
    generalize jsTruthy env.SNOWFLAKE_USER = u
    generalize jsTruthy env.SNOWFLAKE_PAT = p
    generalize jsTruthy env.SNOWFLAKE_PASSWORD = w
    revert o k u p w
    decide
  · generalize jsTruthy (getOAuthToken env) = o
    generalize jsTruthy (getPrivateKey env) = k
    generalize jsTruthy env.SNOWFLAKE_USER = u
    generalize jsTruthy env.SNOWFLAKE_PAT = p
    generalize jsTruthy env.SNOWFLAKE_PASSWORD = w
    revert o k u p w
    decide
  · generalize jsTruthy (getOAuthToken env) = o
    generalize jsTruthy (getPrivateKey env) = k
    generalize jsTruthy env.SNOWFLAKE_USER = u
    generalize jsTruthy env.SNOWFLAKE_PAT = p
    generalize jsTruthy env.SNOWFLAKE_PASSWORD = w
    revert o k u p w
    decide
  · generalize jsTruthy (getOAuthToken env) = o
    generalize jsTruthy (getPrivateKey env) = k
    generalize jsTruthy env.SNOWFLAKE_USER = u
    generalize jsTruthy env.SNOWFLAKE_PAT = p
    generalize jsTruthy env.SNOWFLAKE_PASSWORD = w
    revert o k u p w
    decide
  · generalize jsTruthy (getOAuthToken env) = o
    generalize jsTruthy (getPrivateKey env) = k
    generalize jsTruthy env.SNOWFLAKE_USER = u
    generalize jsTruthy env.SNOWFLAKE_PAT = p
    generalize jsTruthy env.SNOWFLAKE_PASSWORD = w
    revert o k u p w
    decide
  · intro hno hk hu
    have ho : jsTruthy (getOAuthToken env) = false := by rw [hno]; rfl
    simp [ho, hk, hu]

/-- Claim C9: private-key resolution prefers inline key material (with
literal backslash-n sequences replaced by real newlines) over a key-file
path; inline material containing a literal backslash-n resolves to material
containing a real newline; and when neither inline material nor a readable
key file is present, resolution yields no key. -/
theorem getPrivateKey_resolution (env : Env) :
    (jsTruthy env.SNOWFLAKE_PRIVATE_KEY = true →
      getPrivateKey env = some (fixNewlinesStr (env.SNOWFLAKE_PRIVATE_KEY.getD "")))
  ∧ (∀ s : String, hasSub ['\\', 'n'] s.data = true → '\n' ∈ (fixNewlinesStr s).data)
  ∧ (jsTruthy env.SNOWFLAKE_PRIVATE_KEY = false →
      (jsTruthy env.SNOWFLAKE_PRIVATE_KEY_PATH = false ∨
        env.files (env.SNOWFLAKE_PRIVATE_KEY_PATH.getD "") = none) →
      getPrivateKey env = none) := by
  refine ⟨?_, ?_, ?_⟩
  · intro h
    simp [getPrivateKey, h]
  · intro s hs
    simpa [fixNewlinesStr] using newline_mem_fixNewlines s.data hs
  · intro h1 h2
    rcases h2 with h2 | h2 <;> simp [getPrivateKey, h1, h2]

def envW9 : Env := ⟨fun _ => none, none, some "AB\\nCD", none, none, none, none⟩

theorem getPrivateKey_resolution_witness :
    jsTruthy envW9.SNOWFLAKE_PRIVATE_KEY = true ∧
    getPrivateKey envW9 = some "AB\nCD" := by
  refine ⟨by decide, ?_⟩
  have h := (getPrivateKey_resolution envW9).1 (by decide)
  rw [h]
  decide

/-- Claim C8: `generateJWT` raises its credential error if and only if no
private key is resolvable at the time of the call; when no key is
resolvable the error is produced for every choice of the cryptographic
primitives, i.e. before any signing work. -/
theorem generateJWT_error_iff (fingerprintOf : String → String)
    (sign : String → String → String) (env : Env) (now : Nat) :
    generateJWT fingerprintOf sign env now =
      Except.error "Private key not available for JWT generation" ↔
    privateKeyResolvable env = false := by
  unfold generateJWT privateKeyResolvable
  cases hk : getPrivateKey env with
  | none => simp [jsTruthy]
  | some k =>
    by_cases hke : k = ""
    · subst hke
      simp [jsTruthy]
    · have hbeq : (k == "") = false := by simp [hke]
      simp [jsTruthy, hbeq]

/-- Claim C4: a query failure is classified retryable exactly when its
message indicates an expired OAuth access token or a terminated connection,
or its code is 407002; every other failure — and any failure with the retry
budget exhausted — is propagated to the caller unchanged, with a log entry
recording the failure. -/
theorem isRetryable_classification {α : Type} (env : Env)
    (exec : Nat → Except SfError (List α)) (σ : Cache) (a r : Nat) (e : SfError)
    (hx : exec a = Except.error e) (hstop : isRetryableError e = false ∨ r = 0) :
    (∀ e' : SfError, isRetryableError e' = true ↔
      ((∃ m, e'.message = some m ∧
          (strIncludes m "OAuth access token expired" = true ∨
           strIncludes m "terminated connection" = true)) ∨ e'.code = some (407002 : Int)))
  ∧ query env exec σ a r =
      ((getConnection env σ).1, Except.error e, ["Query error: " ++ msgText e]) := by
  constructor
  · intro e'
    unfold isRetryableError
    cases hm : e'.message with
    | none => simp
    | some m => simp [Bool.or_eq_true, beq_iff_eq]
  · rcases hstop with h | h
    · cases r with
      | zero =>
        unfold query
        rw [hx]
      | succ n =>
        unfold query
        rw [hx]
        dsimp only
        rw [if_neg (by simp [h])]
    · subst h
      unfold query
      rw [hx]

def envW0 : Env := ⟨fun _ => none, none, none, none, none, none, none⟩

def execW4 : Nat → Except SfError (List String) :=
  fun _ => Except.error ⟨some "permission denied", none⟩

theorem isRetryable_classification_witness :
    isRetryableError ⟨some "permission denied", none⟩ = false ∧
    (query envW0 execW4 initCache 0 1).2.1 =
      Except.error ⟨some "permission denied", none⟩ := by
  refine ⟨by decide, ?_⟩
  rw [(isRetryable_classification envW0 execW4 initCache 0 1
    ⟨some "permission denied", none⟩ rfl (Or.inl (by decide))).2]

/-- Claim C3: with the default retry budget of 1, a query whose first
submission fails with a retryable error drops the cached session, retries
exactly once, and propagates the second failure; the budget bounds the
number of submissions (the result only depends on the first
`retries + 1` oracle answers), so the recursion is finitely bounded. -/
theorem query_retry_bound {α : Type} (env : Env)
    (exec : Nat → Except SfError (List α)) (σ : Cache) (e₁ e₂ : SfError)
    (h0 : exec 0 = Except.error e₁) (hr : isRetryableError e₁ = true)
    (h1 : exec 1 = Except.error e₂) :
    (query env exec σ 0 defaultRetries).2.1 = Except.error e₂
  ∧ (query env exec σ 0 defaultRetries).2.2 =
      ["Query error: " ++ msgText e₁, "Query error: " ++ msgText e₂]
  ∧ σ.nextId < (query env exec σ 0 defaultRetries).1.nextId
  ∧ defaultRetries = 1
  ∧ (∀ (exec₁ exec₂ : Nat → Except SfError (List α)) (σ' : Cache) (a r : Nat),
      (∀ i, i ≤ r → exec₁ (a + i) = exec₂ (a + i)) →
      query env exec₁ σ' a r = query env exec₂ σ' a r) := by
  have hq : query env exec σ 0 defaultRetries =
      ((getConnection env { (getConnection env σ).1 with connection := none }).1,
       Except.error e₂,
       ["Query error: " ++ msgText e₁, "Query error: " ++ msgText e₂]) := by
    show query env exec σ 0 1 = _
    unfold query
    rw [h0]
    dsimp only
    rw [if_pos hr]
    unfold query
    rw [h1]
  have hstep : (getConnection env { (getConnection env σ).1 with connection := none }).1.nextId
      = (getConnection env σ).1.nextId + 1 := by
    rw [getConnection_of_no_conn env _ rfl]
  refine ⟨by rw [hq], by rw [hq], ?_, rfl,
    fun exec₁ exec₂ σ' a r h => query_frame env r exec₁ exec₂ σ' a h⟩
  rw [hq]
  have hle := getConnection_nextId_le env σ
  simp only [hstep]
  omega

def execW3 : Nat → Except SfError (List String) := fun n =>
  if n = 0 then Except.error ⟨some "OAuth access token expired", none⟩
  else Except.error ⟨some "permission denied", none⟩

theorem query_retry_bound_witness :
    execW3 0 = Except.error ⟨some "OAuth access token expired", none⟩ ∧
    (query envW0 execW3 initCache 0 defaultRetries).2.1 =
      Except.error ⟨some "permission denied", none⟩ := by
  refine ⟨rfl, ?_⟩
  exact (query_retry_bound envW0 execW3 initCache
    ⟨some "OAuth access token expired", none⟩ ⟨some "permission denied", none⟩
    rfl (by decide) rfl).1

/-- Claim C1: after a first query established a session, a second query
reuses the cached session (no second connect) exactly when the freshly
resolved method equals the one the session was built under and the token
now available for token-bearing methods (the oauth token the source
fetches at line 121) is absent or equal to the one the session was built
with; otherwise the old session is replaced by a newly connected one
before the query runs, and in particular a changed OAuth token file forces
a reconnect. -/
theorem session_reuse_iff (env₁ env₂ : Env) (σ₁ : Cache) (c₁ : Conn)
    (h₁ : getConnection env₁ initCache = (σ₁, c₁, true)) :
    ((getConnection env₂ σ₁).2.2 = false ↔
      (detectAuthMethod env₂ = detectAuthMethod env₁ ∧
       (availableToken env₂ = none ∨ availableToken env₂ = availableToken env₁)))
  ∧ ((getConnection env₂ σ₁).2.2 = false → getConnection env₂ σ₁ = (σ₁, c₁, false))
  ∧ ((getConnection env₂ σ₁).2.2 = true →
      ((getConnection env₂ σ₁).1.connection = some (getConnection env₂ σ₁).2.1 ∧
       (getConnection env₂ σ₁).2.1 ≠ c₁ ∧
       (getConnection env₂ σ₁).2.1.method = detectAuthMethod env₂ ∧
       (getConnection env₂ σ₁).2.1.token = availableToken env₂ ∧
       (getConnection env₂ σ₁).1.cachedAuthMethod = some (detectAuthMethod env₂) ∧
       (getConnection env₂ σ₁).1.cachedToken = availableToken env₂))
  ∧ ((detectAuthMethod env₁ = AuthMethod.oauth ∧ detectAuthMethod env₂ = AuthMethod.oauth ∧
       getOAuthToken env₂ ≠ getOAuthToken env₁) → (getConnection env₂ σ₁).2.2 = true) := by
  have hinit := getConnection_init env₁
  rw [h₁, Prod.ext_iff, Prod.ext_iff] at hinit
  obtain ⟨hσ, hc, -⟩ := hinit
  subst hσ
  subst hc
  by_cases hC : detectAuthMethod env₂ = detectAuthMethod env₁ ∧
      (availableToken env₂ = none ∨ availableToken env₂ = availableToken env₁)
  · have hre := getConnection_reuse env₂
      { connection := some ⟨0, detectAuthMethod env₁, availableToken env₁⟩,
        cachedToken := availableToken env₁,
        cachedAuthMethod := some (detectAuthMethod env₁), nextId := 1 }
      ⟨0, detectAuthMethod env₁, availableToken env₁⟩ rfl
      (by simp [hC.1])
      (by rcases hC.2 with h | h
          · exact Or.inl (by rw [h]; rfl)
          · exact Or.inr (by simpa using h))
    rw [hre]
    refine ⟨by simpa using hC, fun _ => rfl, by simp, ?_⟩
    rintro ⟨hm1, hm2, hne⟩
    exfalso
    rcases hC.2 with h | h
    · rw [show availableToken env₂ = getOAuthToken env₂ from by
        simp [availableToken, hm2]] at h
      have := (detect_oauth_iff env₂).mp hm2
      rw [h] at this
      simp [jsTruthy] at this
    · rw [show availableToken env₂ = getOAuthToken env₂ from by
          simp [availableToken, hm2],
        show availableToken env₁ = getOAuthToken env₁ from by
          simp [availableToken, hm1]] at h
      exact hne h
  · have hrc := getConnection_reconnect env₂
      { connection := some ⟨0, detectAuthMethod env₁, availableToken env₁⟩,
        cachedToken := availableToken env₁,
        cachedAuthMethod := some (detectAuthMethod env₁), nextId := 1 }
      (by
        rintro ⟨-, hm, ht⟩
        refine hC ⟨by simpa using hm.symm, ?_⟩
        rcases ht with h | h
        · exact Or.inl ((availableToken_none_iff env₂).mp h)
        · exact Or.inr (by simpa using h))
    rw [hrc]
    refine ⟨by simpa using hC, by simp, fun _ => ⟨rfl, by simp, rfl, rfl, rfl, rfl⟩, fun _ => rfl⟩

def envWA : Env :=
  ⟨fun p => if p == "/snowflake/session/token" then some "tok1" else none,
   none, none, some "bob", some "patval", none, some "acct"⟩

def envWB : Env :=
  ⟨fun p => if p == "/snowflake/session/token" then some "tok2" else none,
   none, none, some "bob", some "patval", none, some "acct"⟩

def cacheWA : Cache :=
  ⟨some ⟨0, AuthMethod.oauth, some "tok1"⟩, some "tok1", some AuthMethod.oauth, 1⟩

def connWA : Conn := ⟨0, AuthMethod.oauth, some "tok1"⟩

theorem session_reuse_iff_witness :
    getConnection envWA initCache = (cacheWA, connWA, true) ∧
    (getConnection envWB cacheWA).2.2 = true := by
  refine ⟨by decide, ?_⟩
  exact (session_reuse_iff envWA envWB cacheWA connWA (by decide)).2.2.2 (by decide)

/-- Claim C6 counterexample: the source removes the *first occurrence* of
`.GLOBAL` anywhere in the uppercased account, not only a suffix, so for
account `"a.globalx"` and user `"u"` the code yields `"AX.U"` while the
claim's normalization (strip a `.GLOBAL` suffix, then truncate at the first
dot) yields `"A.U"`. -/
theorem jwtQualifiedUsername_counterexample :
    jwtQualifiedUsername "a.globalx" "u" = "AX.U" ∧
    specQualifiedIdentity "a.globalx" "u" = "A.U" ∧
    jwtQualifiedUsername "a.globalx" "u" ≠ specQualifiedIdentity "a.globalx" "u" := by
  refine ⟨by decide, by decide, by decide⟩

/-- Claim C6 (amended): the qualified identity equals the account
identifier uppercased with the first occurrence of `.GLOBAL` removed,
truncated to the segment before the first remaining dot, concatenated with
a dot and the uppercased username; in particular account
`"XY12345.US-EAST-1.aws"` with user `"Alice"` yields `"XY12345.ALICE"`. -/
theorem jwtQualifiedUsername_amended (account user : String) :
    jwtQualifiedUsername account user = amendedQualifiedIdentity account user ∧
    jwtQualifiedUsername "XY12345.US-EAST-1.aws" "Alice" = "XY12345.ALICE" := by
  constructor
  · unfold jwtQualifiedUsername amendedQualifiedIdentity
    rw [removeFirstIdx_eq]
  · decide

/-- Claim C7: under a resolvable non-empty private key, the signed bearer
token is `headerB64 ++ "." ++ payloadB64 ++ "." ++ signatureB64`, where the
header is the RS256/JWT JSON object and the payload carries issuer
`{qualifiedIdentity}.SHA256:{fingerprint}`, subject the qualified identity,
issued-at `now` and expiry exactly `now + 3600`, both unpadded
base64url-encoded; the header and payload segments are identical for every
signing function, i.e. re-signing with the same (account, username, key,
timestamp) reproduces them byte for byte. -/
theorem generateJWT_structure (fingerprintOf : String → String) (env : Env) (now : Nat)
    (k : String) (hk : getPrivateKey env = some k) (hne : k ≠ "") :
    (∀ sign : String → String → String,
      generateJWT fingerprintOf sign env now = Except.ok
        (base64url jwtHeaderJson ++ "." ++
         base64url (jwtPayloadJson
           (jwtQualifiedUsername (env.SNOWFLAKE_ACCOUNT.getD "") (env.SNOWFLAKE_USER.getD ""))
           (fingerprintOf k) now) ++ "." ++
         sign k (base64url jwtHeaderJson ++ "." ++
           base64url (jwtPayloadJson
             (jwtQualifiedUsername (env.SNOWFLAKE_ACCOUNT.getD "") (env.SNOWFLAKE_USER.getD ""))
             (fingerprintOf k) now))))
  ∧ (∀ qu fp : String, jwtPayloadJson qu fp now =
      "\x7b\"iss\":\"" ++ jsonEsc (qu ++ ".SHA256:" ++ fp) ++ "\",\"sub\":\"" ++ jsonEsc qu ++
      "\",\"iat\":" ++ toString now ++ ",\"exp\":" ++ toString (now + 3600) ++ "\x7d")
  ∧ '=' ∉ (base64url jwtHeaderJson).data
  ∧ '=' ∉ (base64url (jwtPayloadJson
      (jwtQualifiedUsername (env.SNOWFLAKE_ACCOUNT.getD "") (env.SNOWFLAKE_USER.getD ""))
      (fingerprintOf k) now)).data := by
  refine ⟨?_, fun qu fp => rfl, base64url_no_pad _, base64url_no_pad _⟩
  intro sign
  unfold generateJWT
  rw [hk]
  dsimp only
  rw [if_neg (by simp [hne])]

def envW7 : Env := ⟨fun _ => none, none, some "KEY", some "BOB", none, none, some "ACCT"⟩

def fpW : String → String := fun _ => "FP"

def signW : String → String → String := fun _ _ => "SIG"

theorem generateJWT_structure_witness :
    getPrivateKey envW7 = some "KEY" ∧
    generateJWT fpW signW envW7 5 = Except.ok
      (base64url jwtHeaderJson ++ "." ++
       base64url (jwtPayloadJson (jwtQualifiedUsername "ACCT" "BOB") "FP" 5) ++ "." ++
       "SIG") := by
  refine ⟨by decide, ?_⟩
  exact (generateJWT_structure fpW envW7 5 "KEY" (by decide) (by decide)).1 signW

/-- Claim C10: in the fallback path's constructed SQL statement every
single quote of the question is doubled before interpolation, so the
statement is the fixed template around one string literal whose body is
exactly the doubled-quote encoding of the prompt followed by the question:
the body contains no undoubled quote, and decoding it recovers the prompt
and the raw question. -/
theorem fallbackSql_escapes (q : String) :
    fallbackSql q = sqlTplPre ++ escapeQuotes q ++ sqlTplPost
  ∧ sqlTplPre = "\n    SELECT SNOWFLAKE.CORTEX.COMPLETE(\n      " ++ sqStr ++
      "mistral-large2" ++ sqStr ++ ",\n      " ++ sqStr ++ promptText
  ∧ sqlTplPost = sqStr ++ "\n    ) as RESPONSE\n  "
  ∧ (escapeQuotes q).data = escListQ q.data
  ∧ promptText.data ++ (escapeQuotes q).data = escListQ (promptText.data ++ q.data)
  ∧ allQuotesDoubled (promptText.data ++ (escapeQuotes q).data) = true
  ∧ unescListQ (promptText.data ++ (escapeQuotes q).data) = promptText.data ++ q.data := by
  have hnoq : sqChar ∉ promptText.data := by decide
  have hbody : promptText.data ++ (escapeQuotes q).data = escListQ (promptText.data ++ q.data) := by
    rw [escListQ_append, escListQ_of_no_quote _ hnoq]
    rfl
  refine ⟨rfl, rfl, rfl, rfl, hbody, ?_, ?_⟩
  · rw [hbody, allQuotesDoubled_esc]
  · rw [hbody, unescListQ_esc]

/-- Claim C5 counterexample: when the Cortex Agent call fails with an
abort (timeout), the handler does not fall back — even with a fallback
result available it returns a 504 error with no answer, so the timeout is
surfaced directly to the caller. -/
theorem post_timeout_counterexample :
    postHandler (some "What is the AQI?")
      (Except.error ⟨"The operation was aborted", true⟩)
      (Except.ok ["fallback answer"]) =
    ⟨504, none, none, none, none,
      some "Request timed out. Please try a simpler question."⟩ := by
  decide

/-- Claim C5 (amended): for every non-empty question, an agent failure
that is not an abort/`DOMException` falls back to the text-completion
query, returning only free text with null sql and null results; an abort
or `DOMException` failure instead yields a 504 timeout error response,
independent of any fallback outcome (the fallback is never consulted). -/
theorem post_fallback_amended (q : String) (f : AgentFail) (rows : List String)
    (hq : jsTruthy (some q) = true)
    (hab : strIncludes f.message "aborted" = false) (hdom : f.isDomException = false) :
    postHandler (some q) (Except.error f) (Except.ok rows) =
      ⟨200, some (fallbackAnswer rows), none, none, some false, none⟩
  ∧ (∀ f' : AgentFail,
      (strIncludes f'.message "aborted" = true ∨ f'.isDomException = true) →
      ∀ fb₁ fb₂ : Except SfError (List String),
        postHandler (some q) (Except.error f') fb₁ =
          postHandler (some q) (Except.error f') fb₂ ∧
        postHandler (some q) (Except.error f') fb₁ =
          ⟨504, none, none, none, none,
            some "Request timed out. Please try a simpler question."⟩) := by
  constructor
  · unfold postHandler
    rw [if_neg (by simp [hq])]
    simp [hab, hdom]
  · intro f' hf' fb₁ fb₂
    have hc : (strIncludes f'.message "aborted" || f'.isDomException) = true := by
      rcases hf' with h | h <;> simp [h]
    unfold postHandler
    rw [if_neg (by simp [hq]), if_neg (by simp [hq])]
    simp [hc]

theorem post_fallback_amended_witness :
    jsTruthy (some "What is the AQI?") = true ∧
    postHandler (some "What is the AQI?")
        (Except.error ⟨"HTTP 503 from agent", false⟩)
        (Except.ok ["Air quality is moderate."]) =
      ⟨200, some "Air quality is moderate.", none, none, some false, none⟩ := by
  refine ⟨by decide, ?_⟩
  exact (post_fallback_amended "What is the AQI?" ⟨"HTTP 503 from agent", false⟩
    ["Air quality is moderate."] (by decide) (by decide) (by decide)).1
